import Mathlib

/-!
Verification of the Cloud-AI feature-reconstruction and serving layer.

A shallow embedding, in Lean 4, of the inference-time logic of the
Cloud-AI repository: the housing feature encoder (`app.py::make_features`,
`ml_service/predict.py::ModelPredictor.predict_housing`), the bundle
loaders (`app.py::load_model`, `predict.py::ModelPredictor._load_models`),
the confidence-band post-processing, the electricity forecast loop
(`electricity_app.py::generate_forecast`,
`predict.py::ModelPredictor.predict_electricity`), and the HTTP handlers
(`ml_service/server.py`).

Single-row pandas DataFrames are embedded as association lists of
column name to value (column order is the list order, as in pandas).
Numeric cell values are idealized as rationals; the model itself is kept
abstract (a function parameter), since every claim under study concerns
the code around the frozen model, not the model weights.
-/

namespace CloudAI

/-- A cell value of the single-row frame: either raw text (categorical
columns before expansion) or a number.  `pd.get_dummies` indicator cells
are numerically 1/0, embedded as `num`. -/
inductive Val where
  | str (s : String)
  | num (q : ℚ)
  deriving DecidableEq, Repr

/-- A single-row DataFrame: ordered list of (column name, cell value). -/
abbrev Row := List (String × Val)

/-- First value bound to a key in an association list (pandas column
lookup; the frames built here never duplicate a column name). -/
def lookupKey {α : Type} : List (String × α) → String → Option α
  | [], _ => none
  | (k, v) :: t, n => if k = n then some v else lookupKey t n

/-- Membership test `col in df.columns`. -/
def hasCol {α : Type} (r : List (String × α)) (n : String) : Bool :=
  (lookupKey r n).isSome

/-- Assignment `df[n] = v` on a single-row frame: replace in place when the column
exists, otherwise append the new column at the end (pandas semantics). -/
def setCol (r : Row) (n : String) (v : Val) : Row :=
  if hasCol r n then r.map (fun p => if p.1 = n then (n, v) else p) else r ++ [(n, v)]

/-- Column dropping `df.drop(columns=cs)` restricted to columns actually present
(the callers pre-filter `cs` with `if col in row.columns`). -/
def dropCols (r : Row) (cs : List String) : Row :=
  r.filter (fun p => !(cs.contains p.1))

/-- The categorical cell text used to name an indicator column.  In the
embedded pipeline the expanded columns always hold `Val.str` values. -/
def strOf : Val → String
  | .str s => s
  | .num _ => ""

/-- One-hot expansion `pd.get_dummies(df, columns=cats, drop_first=False)` on a one-row
frame: the non-categorical columns keep their order, then one indicator
column per categorical field is appended, named `field ++ "_" ++ value`
and holding 1 — only the value present in the row produces a column. -/
def getDummies (r : Row) (cats : List String) : Row :=
  r.filter (fun p => !(cats.contains p.1)) ++
    cats.filterMap (fun c => (lookupKey r c).map (fun v => (c ++ "_" ++ strOf v, Val.num 1)))

/-! ## Housing feature encoder (`predict.py` lines 100-143, `app.py` lines 149-189) -/

/-- The target encoder handed to the encoder: `transform` on a one-row
county column, `none` standing for any raised exception (unseen
category or transform error). -/
abbrev CountyEncoder := String → Option ℚ

/-- The raw one-row frame built at `predict.py` lines 104-117:
quarter is derived from month by Python floor division. -/
def housingRow0 (property_type is_new duration county : String) (year month : Int) : Row :=
  [("type", .str property_type),
   ("is_new", .str is_new),
   ("duration", .str duration),
   ("county", .str county.toUpper),
   ("year", .num year),
   ("month", .num month),
   ("quarter", .num (Int.fdiv (month - 1) 3 + 1))]

/-- Lines 120-127: the value written into `county_encoded` — the
transform result when the encoder is present and does not raise,
otherwise the 0.0 fallback. -/
def encValOf (enc : Option CountyEncoder) (county : String) : ℚ :=
  match enc with
  | none => 0
  | some f => (f county.toUpper).getD 0

/-- Lines 119-132: target-encode the county (fallback 0.0 when the
encoder is absent or raises), drop the raw county column, then one-hot
expand `type`, `is_new`, `duration`. -/
def expandedRow (enc : Option CountyEncoder)
    (property_type is_new duration county : String) (year month : Int) : Row :=
  let row0 := housingRow0 property_type is_new duration county year month
  let row1 := setCol row0 "county_encoded" (.num (encValOf enc county))
  let row2 := dropCols row1 ["county"]
  getDummies row2 ["type", "is_new", "duration"]

/-- The reference categories dropped at training time (lines 134-136). -/
def colsToDrop : List String := ["type_D", "is_new_N", "duration_F"]

/-- The row just before schema alignment: expansion followed by
reference-category elision. -/
def preAlignRow (enc : Option CountyEncoder)
    (property_type is_new duration county : String) (year month : Int) : Row :=
  dropCols (expandedRow enc property_type is_new duration county year month) colsToDrop

/-- Lines 139-142: `for col in features: if col not in row.columns: row[col] = 0`. -/
def addMissing (names : List String) (r : Row) : Row :=
  names.foldl (fun acc n => if hasCol acc n then acc else acc ++ [(n, Val.num 0)]) r

/-- Line 143, `row = row[features]`: select the named columns in order;
`none` models the pandas `KeyError` raised when a name is absent. -/
def selectCols : List String → Row → Option Row
  | [], _ => some []
  | n :: ns, r =>
      match lookupKey r n, selectCols ns r with
      | some v, some rest => some ((n, v) :: rest)
      | _, _ => none

/-- Lines 139-143 as a whole; when the bundle carries no feature list
the row is passed through unchanged. -/
def alignRow : Option (List String) → Row → Option Row
  | none, r => some r
  | some names, r => selectCols names (addMissing names r)

/-- The full encoder, `make_features` / the row-building part of
`predict_housing`. -/
def makeFeatures (enc : Option CountyEncoder) (feature_names : Option (List String))
    (property_type is_new duration county : String) (year month : Int) : Option Row :=
  alignRow feature_names (preAlignRow enc property_type is_new duration county year month)

/-- The value a row contributes to an aligned column: the stored cell,
or the 0 inserted for a missing column. -/
def valD (r : Row) (n : String) : Val :=
  (lookupKey r n).getD (Val.num 0)

/-! ## Model bundle loading (`app.py` lines 55-74, `predict.py` lines 41-58) -/

/-- A deserialized housing artifact: either a raw estimator object or a
mapping of named parts (`joblib.load` can return either shape). -/
inductive Artifact (ε α : Type) where
  | estimator (e : ε)
  | mapping (entries : List (String × α))

/-- Outcome of `app.py::load_model`: the bundle, or the fatal
`st.error`/`st.stop` path. -/
inductive LoadResult (α : Type) where
  | ok (bundle : List (String × α))
  | fatalError (msg : String)

def LoadResult.isOk {α : Type} : LoadResult α → Bool
  | .ok _ => true
  | .fatalError _ => false

/-- Loader check, `app.py` lines 64-71: `if isinstance(bundle, dict) and 'model' in
bundle: return bundle else: st.error(...); st.stop()`. -/
def load_model {ε α : Type} (a : Artifact ε α) : LoadResult α :=
  match a with
  | .mapping es =>
      if hasCol es "model" then .ok es
      else .fatalError "Invalid model format. Please retrain using notebook 4."
  | .estimator _ => .fatalError "Invalid model format. Please retrain using notebook 4."

/-- The housing fields `_load_models` assigns (`predict.py` lines 49-53);
companions use `.get` and default when absent (`metrics` to `{}`,
`model_name` to `"Unknown"`), embedded as `Option`. -/
structure HousingBundle (α : Type) where
  housing_model : α
  housing_encoder : Option α
  housing_features : Option α
  housing_metrics : Option α
  housing_model_name : Option α

/-- The housing part of `predict.py::_load_models`: `bundle["model"]` on
a raw estimator raises `TypeError` (not subscriptable) and on a mapping
without `"model"` raises `KeyError`; the surrounding `except` logs and
re-raises, so both are fatal. -/
def load_housing_bundle {ε α : Type} (a : Artifact ε α) :
    Except String (HousingBundle α) :=
  match a with
  | .estimator _ => .error "TypeError: object is not subscriptable"
  | .mapping es =>
      match lookupKey es "model" with
      | some m =>
          .ok ⟨m, lookupKey es "target_encoder", lookupKey es "feature_names",
            lookupKey es "metrics", lookupKey es "model_name"⟩
      | none => .error "KeyError: model"

/-! ## Inverse transform and confidence band (`predict.py` lines 145-157,
`app.py` lines 276-291) -/

/-- NumPy `np.expm1`, idealized over the reals. -/
noncomputable def expm1 (x : ℝ) : ℝ := Real.exp x - 1

/-- NumPy `np.log1p`, the training-time target transform, idealized over the
reals. -/
noncomputable def log1p (x : ℝ) : ℝ := Real.log (1 + x)

/-- Line 149: `predicted_price = float(np.expm1(y_log))`. -/
noncomputable def predicted_price (y_log : ℝ) : ℝ := expm1 y_log

/-- Line 153: the hard-coded fallback MAE. -/
noncomputable def mae_default : ℝ := 122353

/-- Line 154: `mae = float(self.housing_metrics.get("test_mae", mae_default))`. -/
noncomputable def mae_of (metrics : List (String × ℝ)) : ℝ :=
  (lookupKey metrics "test_mae").getD mae_default

/-- Line 156: `confidence_lower = max(1000, predicted_price - 2 * mae)`. -/
noncomputable def confidence_lower (price mae : ℝ) : ℝ := max 1000 (price - 2 * mae)

/-- Line 157: `confidence_upper = predicted_price + 2 * mae`. -/
noncomputable def confidence_upper (price mae : ℝ) : ℝ := price + 2 * mae

/-! ## Electricity forecasting (`predict.py` lines 175-221,
`electricity_app.py` lines 38-90) -/

/-- A calendar timestamp as `datetime(year, month, day, hour)`. -/
structure DateTime where
  year : Int
  month : Int
  day : Int
  hour : Int
  deriving DecidableEq, Repr

def isLeap (y : Int) : Bool :=
  (y % 4 == 0 && y % 100 != 0) || (y % 400 == 0)

def daysInMonth (y m : Int) : Int :=
  if m = 2 then (if isLeap y then 29 else 28)
  else if m = 4 ∨ m = 6 ∨ m = 9 ∨ m = 11 then 30
  else 31

/-- Hour increment `current_dt += timedelta(hours=1)` (`electricity_app.py` line 83). -/
def addHour (dt : DateTime) : DateTime :=
  if dt.hour < 23 then { dt with hour := dt.hour + 1 }
  else if dt.day < daysInMonth dt.year dt.month then
    { year := dt.year, month := dt.month, day := dt.day + 1, hour := 0 }
  else if dt.month < 12 then
    { year := dt.year, month := dt.month + 1, day := 1, hour := 0 }
  else
    { year := dt.year + 1, month := 1, day := 1, hour := 0 }

def addHours (dt : DateTime) : Nat → DateTime
  | 0 => dt
  | n + 1 => addHours (addHour dt) n

/-- Days since 1970-01-01 of a proleptic-Gregorian civil date
(Hinnant's `days_from_civil`). -/
def daysFromCivil (y m d : Int) : Int :=
  let y' := if m ≤ 2 then y - 1 else y
  let era := Int.fdiv y' 400
  let yoe := y' - era * 400
  let mp := if 2 < m then m - 3 else m + 9
  let doy := Int.fdiv (153 * mp + 2) 5 + d - 1
  let doe := yoe * 365 + Int.fdiv yoe 4 - Int.fdiv yoe 100 + doy
  era * 146097 + doe - 719468

/-- Python `datetime.weekday()`: Monday = 0 … Sunday = 6
(1970-01-01 was a Thursday). -/
def weekdayMon0 (dt : DateTime) : Int :=
  Int.emod (daysFromCivil dt.year dt.month dt.day + 3) 7

/-- The civil year containing a given day number (Hinnant's
`civil_from_days`, year component), used for the ISO year. -/
def civilYearFromDays (z : Int) : Int :=
  let z' := z + 719468
  let era := Int.fdiv z' 146097
  let doe := z' - era * 146097
  let yoe := Int.fdiv (doe - Int.fdiv doe 1460 + Int.fdiv doe 36524 - Int.fdiv doe 146096) 365
  let y := yoe + era * 400
  let doy := doe - (365 * yoe + Int.fdiv yoe 4 - Int.fdiv yoe 100)
  let mp := Int.fdiv (5 * doy + 2) 153
  let m := if mp < 10 then mp + 3 else mp - 9
  if m ≤ 2 then y + 1 else y

/-- Python `dt.isocalendar()[1]`: the ISO-8601 week number — the week of
the Thursday of this date's (Monday-based) week. -/
def isoWeek (y m d : Int) : Int :=
  let dn := daysFromCivil y m d
  let wd := Int.emod (dn + 3) 7
  let th := dn + (3 - wd)
  let isoY := civilYearFromDays th
  Int.fdiv (th - daysFromCivil isoY 1 1) 7 + 1

/-- The feature row built at `predict.py` lines 198-211. -/
structure ElecFeatures where
  hour : Int
  day_of_week : Int
  month : Int
  week : Int
  is_weekend : Int
  lag_1 : ℚ
  lag_24 : ℚ
  lag_168 : ℚ
  roll_24 : ℚ
  roll_168 : ℚ
  deriving DecidableEq, Repr

/-- Feature build at `predict.py` lines 198-211: calendar features from the timestamp;
every lag and rolling-mean feature is the fixed baseline 35000 ("no
recent data available in API context"). -/
def elecFeatures (dt : DateTime) : ElecFeatures :=
  { hour := dt.hour
    day_of_week := weekdayMon0 dt
    month := dt.month
    week := isoWeek dt.year dt.month dt.day
    is_weekend := if 5 ≤ weekdayMon0 dt then 1 else 0
    lag_1 := 35000
    lag_24 := 35000
    lag_168 := 35000
    roll_24 := 35000
    roll_168 := 35000 }

/-- Round-half-to-even to an integer (Python `round`); the floor is
taken as `Int.fdiv num den`, which on a positive denominator is exactly
`⌊q⌋`. -/
def roundHalfEven (q : ℚ) : Int :=
  let f := Int.fdiv q.num q.den
  let r := q - f
  if r < 1 / 2 then f
  else if 1 / 2 < r then f + 1
  else if f % 2 = 0 then f else f + 1

/-- Python `round(x, 2)`, idealized over the rationals. -/
def round2 (q : ℚ) : ℚ := roundHalfEven (q * 100) / 100

/-- Service method `ModelPredictor.predict_electricity` for a loaded model: build the
feature row from the timestamp alone and return the rounded model
output (`demand_mw`). -/
def predict_electricity (model : ElecFeatures → ℚ) (dt : DateTime) : ℚ :=
  round2 (model (elecFeatures dt))

/-- Forecast loop `electricity_app.py::generate_forecast`: one stateless service call
per hour of the horizon, advancing the timestamp by one hour each step;
the prediction is recorded but never fed into later steps. -/
def generate_forecast (model : ElecFeatures → ℚ) (start : DateTime) :
    Nat → List (DateTime × ℚ)
  | 0 => []
  | n + 1 =>
      (start, predict_electricity model start)
        :: generate_forecast model (addHour start) n

/-- Following the spec's words (§4.4): the value `k` hours back in a
most-recent-last series, falling back to the fixed typical-demand
constant when the series is too short. -/
def lagOr (s : List ℚ) (k : Nat) : ℚ :=
  if 1 ≤ k ∧ k ≤ s.length then s.getD (s.length - k) 0 else 35000

/-- Following the spec's words (§4.4): the rolling mean of the last `k`
values, with the same fallback when the series is too short. -/
def rollOr (s : List ℚ) (k : Nat) : ℚ :=
  if 1 ≤ k ∧ k ≤ s.length then ((s.drop (s.length - k)).sum) / k else 35000

/-- Following the spec's words (§4.4): calendar features from the
timestamp, lag and rolling features from the working history series. -/
def elecFeaturesSpec (dt : DateTime) (s : List ℚ) : ElecFeatures :=
  { hour := dt.hour
    day_of_week := weekdayMon0 dt
    month := dt.month
    week := isoWeek dt.year dt.month dt.day
    is_weekend := if 5 ≤ weekdayMon0 dt then 1 else 0
    lag_1 := lagOr s 1
    lag_24 := lagOr s 24
    lag_168 := lagOr s 168
    roll_24 := rollOr s 24
    roll_168 := rollOr s 168 }

/-- Following the spec's words (§4.4): the autoregressive forecast loop —
after predicting step `t` the prediction is appended to the working
history series, so the lag/rolling features of step `t+1` are computed
over history including prior forecasts. -/
def generate_forecast_spec (model : ElecFeatures → ℚ) (dt : DateTime) (s : List ℚ) :
    Nat → List (DateTime × ℚ)
  | 0 => []
  | n + 1 =>
      let p := round2 (model (elecFeaturesSpec dt s))
      (dt, p) :: generate_forecast_spec model (addHour dt) (s ++ [p]) n

/-! ## HTTP request boundary (`ml_service/server.py`) -/

/-- A JSON value of the request body (the handler only ever inspects
strings and integers). -/
inductive JVal where
  | s (v : String)
  | i (v : Int)
  deriving DecidableEq, Repr

/-- A JSON object: ordered key/value pairs. -/
abbrev JObj := List (String × JVal)

/-- Required request fields, `server.py` line 64. -/
def required_fields : List String :=
  ["property_type", "is_new", "duration", "county", "year", "month"]

/-- Missing-field computation, `server.py` line 65: the required fields absent from the body. -/
def missing_fields (data : JObj) : List String :=
  required_fields.filter (fun f => !(hasCol data f))

/-- The validated inputs handed to `predictor.predict_housing`. -/
structure HousingInputs where
  property_type : String
  is_new : String
  duration : String
  county : String
  year : Int
  month : Int
  deriving DecidableEq, Repr

/-- What the predictor call can do, as seen by the handler's
`try`/`except` (lines 105-123): succeed, raise `ValueError` (mapped to a
400), or raise any other exception (mapped to a 500). -/
inductive PredOutcome where
  | ok (price : ℚ)
  | valueError (msg : String)
  | failure (msg : String)

/-- The handler's HTTP response, with the JSON body's discriminating
content: a 400 listing the missing fields next to `required_fields`, a
plain 400 validation error, a 200 with the prediction, or a 500. -/
inductive HousingResponse where
  | missingFields (missing required : List String)
  | badRequest (error : String)
  | ok (price : ℚ)
  | serverError (details : String)

def statusOf : HousingResponse → Nat
  | .missingFields _ _ => 400
  | .badRequest _ => 400
  | .ok _ => 200
  | .serverError _ => 500

/-- Handler `server.py::predict_housing` (lines 59-123): reject on missing
fields, then validate each enum and range (a non-integer `year`/`month`
makes the Python comparison raise `TypeError`, caught by the generic
handler as a 500), and only then invoke the predictor. -/
def handle_predict_housing (predict : HousingInputs → PredOutcome) (data : JObj) :
    HousingResponse :=
  if missing_fields data ≠ [] then
    .missingFields (missing_fields data) required_fields
  else if ¬ (["D", "S", "T", "F", "O"].any
      (fun t => lookupKey data "property_type" = some (.s t))) then
    .badRequest "Invalid property_type. Must be one of: D, S, T, F, O"
  else if ¬ (lookupKey data "is_new" = some (.s "Y")
      ∨ lookupKey data "is_new" = some (.s "N")) then
    .badRequest "Invalid is_new. Must be 'Y' or 'N'"
  else if ¬ (["F", "L", "U"].any
      (fun t => lookupKey data "duration" = some (.s t))) then
    .badRequest "Invalid duration. Must be one of: F, L, U"
  else
    match lookupKey data "year" with
    | some (.i y) =>
        if ¬ (1995 ≤ y ∧ y ≤ 2025) then
          .badRequest "Year must be between 1995 and 2025"
        else
          match lookupKey data "month" with
          | some (.i mo) =>
              if ¬ (1 ≤ mo ∧ mo ≤ 12) then
                .badRequest "Month must be between 1 and 12"
              else
                match lookupKey data "property_type", lookupKey data "is_new",
                    lookupKey data "duration", lookupKey data "county" with
                | some (.s pt), some (.s nw), some (.s du), some (.s co) =>
                    match predict ⟨pt, nw, du, co, y, mo⟩ with
                    | .ok price => .ok price
                    | .valueError msg => .badRequest msg
                    | .failure msg => .serverError msg
                | _, _, _, _ => .serverError "TypeError"
          | _ => .serverError "TypeError"
    | _ => .serverError "TypeError"

/-! ## Health endpoint (`predict.py` lines 230-239, `server.py` lines 26-41) -/

/-- A JSON value of the health body: string, boolean, `None`, or the
nested metrics mapping. -/
inductive HVal where
  | s (v : String)
  | b (v : Bool)
  | null
  | dict (m : List (String × ℚ))
  deriving DecidableEq, Repr

/-- Health report `ModelPredictor.health_check` (lines 232-239): `housing_model_type`
is the model's class name when loaded and `None` otherwise, and `status`
is `"healthy"` exactly when the housing model is loaded — the
electricity model does not enter the condition. -/
def health_check (housingLoaded elecLoaded : Bool) (housingTypeName modelName : String)
    (metrics : List (String × ℚ)) : List (String × HVal) :=
  [("housing_model_loaded", .b housingLoaded),
   ("electricity_model_loaded", .b elecLoaded),
   ("housing_model_type", if housingLoaded then .s housingTypeName else .null),
   ("model_name", .s modelName),
   ("metrics", .dict metrics),
   ("status", .s (if housingLoaded then "healthy" else "degraded"))]

/-- Python dict update: a repeated key overwrites the earlier value in
place, a new key is appended. -/
def dictInsert (d : List (String × HVal)) (k : String) (v : HVal) :
    List (String × HVal) :=
  if hasCol d k then d.map (fun p => if p.1 = k then (k, v) else p) else d ++ [(k, v)]

/-- Handler `server.py::health` (lines 29-35): the literal
`{"status": "ok", "service": ..., **health_status}` merged left to
right, returned with HTTP 200 (the `except` branch is unreachable since
`health_check` cannot raise). -/
def health_route (housingLoaded elecLoaded : Bool) (housingTypeName modelName : String)
    (metrics : List (String × ℚ)) : List (String × HVal) × Nat :=
  ((health_check housingLoaded elecLoaded housingTypeName modelName metrics).foldl
      (fun acc p => dictInsert acc p.1 p.2)
      [("status", .s "ok"), ("service", .s "ML Prediction Service")],
    200)

@[simp] theorem lookupKey_nil {α : Type} (n : String) :
    lookupKey ([] : List (String × α)) n = none := rfl

@[simp] theorem lookupKey_cons {α : Type} (k : String) (v : α) (t : List (String × α)) (n : String) :
    lookupKey ((k, v) :: t) n = if k = n then some v else lookupKey t n := rfl

theorem lookupKey_append {α : Type} (r s : List (String × α)) (n : String) :
    lookupKey (r ++ s) n = ((lookupKey r n).orElse fun _ => lookupKey s n) := by
  induction r with
  | nil => simp [Option.orElse]
  | cons p t ih =>
      obtain ⟨k, v⟩ := p
      by_cases h : k = n <;> simp [h, ih, Option.orElse]

theorem lookupKey_append_of_some {α : Type} {r : List (String × α)} {n : String} {v : α}
    (h : lookupKey r n = some v) (s : List (String × α)) :
    lookupKey (r ++ s) n = some v := by
  rw [lookupKey_append, h]; rfl

theorem lookupKey_append_of_none {α : Type} {r : List (String × α)} {n : String}
    (h : lookupKey r n = none) (s : List (String × α)) :
    lookupKey (r ++ s) n = lookupKey s n := by
  rw [lookupKey_append, h]; rfl

theorem lookupKey_addMissing_of_some {r : Row} {n : String} {v : Val}
    (h : lookupKey r n = some v) (names : List String) :
    lookupKey (addMissing names r) n = some v := by
  induction names generalizing r with
  | nil => simpa [addMissing] using h
  | cons m ms ih =>
      show lookupKey (addMissing ms _) n = some v
      by_cases hm : hasCol r m
      · simp only [addMissing, List.foldl_cons, hm, if_pos]
        exact ih h
      · simp only [addMissing, List.foldl_cons, hm, if_neg, Bool.false_eq_true,
          not_false_iff]
        exact ih (lookupKey_append_of_some h _)

theorem lookupKey_addMissing_mem {names : List String} {n : String}
    (hn : n ∈ names) (r : Row) :
    lookupKey (addMissing names r) n = some (valD r n) := by
  induction names generalizing r with
  | nil => cases hn
  | cons m ms ih =>
      show lookupKey (addMissing ms (if hasCol r m then r else r ++ [(m, Val.num 0)])) n = _
      rcases List.mem_cons.mp hn with rfl | hmem
      · by_cases hm : hasCol r n
        · simp only [if_pos hm]
          obtain ⟨v, hv⟩ := Option.isSome_iff_exists.mp hm
          rw [lookupKey_addMissing_of_some hv, valD, hv]; rfl
        · simp only [if_neg hm]
          have hnone : lookupKey r n = none := by
            simpa [hasCol] using hm
          have : lookupKey (r ++ [(n, Val.num 0)]) n = some (Val.num 0) := by
            rw [lookupKey_append_of_none hnone]; simp
          rw [lookupKey_addMissing_of_some this, valD, hnone]; rfl
      · by_cases hm : hasCol r m
        · rw [if_pos hm]; exact ih hmem r
        · rw [if_neg hm]
          rw [ih hmem]
          have hnone : lookupKey r m = none := by simpa [hasCol] using hm
          unfold valD
          rw [lookupKey_append]
          cases hr : lookupKey r n with
          | some v => simp [Option.orElse]
          | none =>
              simp only [Option.orElse, Option.getD]
              by_cases hmn : m = n <;> simp [hmn]

theorem selectCols_of_forall {names : List String} {r : Row} {f : String → Val}
    (h : ∀ n ∈ names, lookupKey r n = some (f n)) :
    selectCols names r = some (names.map fun n => (n, f n)) := by
  induction names with
  | nil => rfl
  | cons m ms ih =>
      have hm := h m (List.mem_cons_self m ms)
      have hms := ih (fun n hn => h n (List.mem_cons_of_mem m hn))
      simp [selectCols, hm, hms]

/-- Characterization of schema alignment: the aligned row is exactly the
expected-column list, each column holding the pre-alignment cell or 0. -/
theorem alignRow_char (names : List String) (r : Row) :
    alignRow (some names) r = some (names.map fun n => (n, valD r n)) := by
  unfold alignRow
  exact selectCols_of_forall (fun n hn => lookupKey_addMissing_mem hn r)

/-! ## C1: the aligned row's columns equal `expected_columns` exactly -/

/-- C1. For every valid enumerated housing input, when the bundle's
expected-column list is present and non-empty, the encoded row equals the
expected list name-for-name in the same order: each expected column holds
the cell the expansion produced or 0 when it produced none, and any
produced column outside the list is dropped (the aligned row contains only
names of the list). -/
theorem makeFeatures_columns_exact
    (enc : Option CountyEncoder) (names : List String)
    (pt nw du co : String) (y m : Int)
    (_hpt : pt ∈ ["D", "S", "T", "F", "O"]) (_hnw : nw ∈ ["Y", "N"])
    (_hdu : du ∈ ["F", "L", "U"]) (_hne : names ≠ []) :
    makeFeatures enc (some names) pt nw du co y m
      = some (names.map fun n => (n, valD (preAlignRow enc pt nw du co y m) n))
    ∧ ∀ out, makeFeatures enc (some names) pt nw du co y m = some out →
        out.map Prod.fst = names := by
  refine ⟨alignRow_char names _, fun out hout => ?_⟩
  simp only [makeFeatures] at hout
  rw [alignRow_char names _] at hout
  cases hout
  rw [List.map_map]
  have hid : (Prod.fst ∘ fun n : String => (n, valD (preAlignRow enc pt nw du co y m) n)) = id := rfl
  rw [hid, List.map_id]

/-- Witness for C1 at a concrete valid input with a concrete non-empty
expected-column list. -/
theorem makeFeatures_columns_exact_witness :
    (("T" : String) ∈ ["D", "S", "T", "F", "O"] ∧ ("N" : String) ∈ ["Y", "N"] ∧
      ("F" : String) ∈ ["F", "L", "U"] ∧ (["year", "type_S", "type_T"] : List String) ≠ []) ∧
    (makeFeatures none (some ["year", "type_S", "type_T"]) "T" "N" "F" "KENT" 2016 6
        = some ((["year", "type_S", "type_T"]).map fun n =>
            (n, valD (preAlignRow none "T" "N" "F" "KENT" 2016 6) n))
      ∧ ∀ out, makeFeatures none (some ["year", "type_S", "type_T"]) "T" "N" "F" "KENT" 2016 6
          = some out → out.map Prod.fst = ["year", "type_S", "type_T"]) :=
  ⟨⟨by decide, by decide, by decide, by decide⟩,
    makeFeatures_columns_exact none ["year", "type_S", "type_T"] "T" "N" "F" "KENT" 2016 6
      (by decide) (by decide) (by decide) (by decide)⟩

/-! ## C3: categorical expansion covers only the values present in the row -/

/-- C3 counterexample. At the concrete input `type = "T"`, the
categorical expansion (before reference dropping and alignment) contains
no `type_S` and no `type_D` indicator column, so it does not materialize
the full training-time vocabulary. -/
theorem expandedRow_missing_vocabulary_cex :
    ¬ ("type_S" ∈ (expandedRow none "T" "N" "F" "KENT" 2016 6).map Prod.fst) ∧
    ¬ ("type_D" ∈ (expandedRow none "T" "N" "F" "KENT" 2016 6).map Prod.fst) := by
  decide

/-- C3 amended. The categorical expansion of the one-row input
materializes exactly one indicator column per categorical field — the one
named after the value present in the row — rather than one per
training-time vocabulary entry; indicators for the other categories only
appear later, during schema alignment. -/
theorem expandedRow_single_indicator_per_field
    (enc : Option CountyEncoder) (pt nw du co : String) (y m : Int) :
    (expandedRow enc pt nw du co y m).map Prod.fst
      = ["year", "month", "quarter", "county_encoded",
         "type_" ++ pt, "is_new_" ++ nw, "duration_" ++ du] := rfl

/-! ## String-prefix facts used to separate generated column names -/

theorem type_append_ne (v t : String) (h : t.data.head? ≠ some 't') : ("type_" ++ v) ≠ t :=
  fun e => h (by rw [← e]; rfl)
theorem is_new_append_ne (v t : String) (h : t.data.head? ≠ some 'i') : ("is_new_" ++ v) ≠ t :=
  fun e => h (by rw [← e]; rfl)
theorem duration_append_ne (v t : String) (h : t.data.head? ≠ some 'd') : ("duration_" ++ v) ≠ t :=
  fun e => h (by rw [← e]; rfl)

/-- The categorical expansion in fully evaluated form. -/
theorem expandedRow_eq (enc : Option CountyEncoder)
    (pt nw du co : String) (y m : Int) :
    expandedRow enc pt nw du co y m =
      [("year", .num y), ("month", .num m),
       ("quarter", .num (Int.fdiv (m - 1) 3 + 1)),
       ("county_encoded", .num (encValOf enc co)),
       ("type_" ++ pt, .num 1), ("is_new_" ++ nw, .num 1), ("duration_" ++ du, .num 1)] := rfl

/-- The pre-alignment row splits into the fixed numeric block followed by
the surviving indicator columns. -/
theorem preAlignRow_eq (enc : Option CountyEncoder)
    (pt nw du co : String) (y m : Int) :
    preAlignRow enc pt nw du co y m =
      [("year", .num y), ("month", .num m),
       ("quarter", .num (Int.fdiv (m - 1) 3 + 1)),
       ("county_encoded", .num (encValOf enc co))] ++
      dropCols [("type_" ++ pt, .num 1), ("is_new_" ++ nw, .num 1), ("duration_" ++ du, .num 1)]
        colsToDrop := rfl

/-- Selecting named columns built from a name-indexed value function
keeps exactly those names. -/
theorem map_fst_named (names : List String) (f : String → Val) :
    (names.map fun n => (n, f n)).map Prod.fst = names := by
  rw [List.map_map]
  have hid : (Prod.fst ∘ fun n : String => (n, f n)) = id := rfl
  rw [hid, List.map_id]

/-! ## C5: unseen county / encoder failure degrades to 0.0, never raises -/

/-- C5. Whenever the target encoder is absent, or its transform fails
on the (upper-cased) county, the encoder does not raise: the
`county_encoded` column of the row holds the fallback 0.0, the raw
textual `county` column is gone before the model sees the row, and
alignment still produces the full expected shape. -/
theorem county_fallback_encoding
    (enc : Option CountyEncoder) (names : List String)
    (pt nw du co : String) (y m : Int)
    (hfail : enc = none ∨ ∃ f, enc = some f ∧ f co.toUpper = none) :
    lookupKey (preAlignRow enc pt nw du co y m) "county_encoded" = some (.num 0)
    ∧ "county" ∉ (preAlignRow enc pt nw du co y m).map Prod.fst
    ∧ makeFeatures enc (some names) pt nw du co y m
        = some (names.map fun n => (n, valD (preAlignRow enc pt nw du co y m) n))
    ∧ (names.map fun n => (n, valD (preAlignRow enc pt nw du co y m) n)).map Prod.fst
        = names := by
  have hev : encValOf enc co = 0 := by
    rcases hfail with rfl | ⟨f, rfl, hf⟩
    · rfl
    · simp [encValOf, hf]
  refine ⟨?_, ?_, alignRow_char names _, map_fst_named names _⟩
  · rw [preAlignRow_eq]
    simp [lookupKey_append, lookupKey, hev]
  · rw [preAlignRow_eq]
    intro hmem
    simp only [List.map_append, List.mem_append] at hmem
    rcases hmem with h | h
    · simp at h
    · rcases List.mem_map.mp h with ⟨p, hp, hfst⟩
      have hp' := List.mem_of_mem_filter hp
      simp only [List.mem_cons, List.not_mem_nil, or_false] at hp'
      rcases hp' with rfl | rfl | rfl
      · exact type_append_ne pt "county" (by decide) hfst
      · exact is_new_append_ne nw "county" (by decide) hfst
      · exact duration_append_ne du "county" (by decide) hfst

/-- Witness for C5: absent encoder, unseen county, concrete expected
columns. -/
theorem county_fallback_encoding_witness :
    ((none : Option CountyEncoder) = none ∨
      ∃ f, (none : Option CountyEncoder) = some f ∧ f ("Narnia".toUpper) = none) ∧
    (lookupKey (preAlignRow none "T" "N" "F" "Narnia" 2016 6) "county_encoded"
        = some (.num 0)
      ∧ "county" ∉ (preAlignRow none "T" "N" "F" "Narnia" 2016 6).map Prod.fst
      ∧ makeFeatures none (some ["county_encoded", "type_T", "type_S"]) "T" "N" "F" "Narnia" 2016 6
          = some ((["county_encoded", "type_T", "type_S"]).map fun n =>
              (n, valD (preAlignRow none "T" "N" "F" "Narnia" 2016 6) n))
      ∧ ((["county_encoded", "type_T", "type_S"]).map fun n =>
            (n, valD (preAlignRow none "T" "N" "F" "Narnia" 2016 6) n)).map Prod.fst
          = ["county_encoded", "type_T", "type_S"]) :=
  ⟨Or.inl rfl,
    county_fallback_encoding none ["county_encoded", "type_T", "type_S"] "T" "N" "F" "Narnia"
      2016 6 (Or.inl rfl)⟩

theorem lookupKey_eq_none_of_forall {r : Row} {n : String}
    (h : ∀ p ∈ r, p.1 ≠ n) : lookupKey r n = none := by
  induction r with
  | nil => rfl
  | cons p t ih =>
      obtain ⟨k, v⟩ := p
      have hk : k ≠ n := h (k, v) (List.mem_cons_self _ _)
      simp only [lookupKey_cons, if_neg hk]
      exact ih (fun q hq => h q (List.mem_cons_of_mem _ hq))

theorem lookupKey_dropCols_none {l : Row} {cs : List String} {n : String}
    (h : ∀ p ∈ l, p.1 ≠ n) : lookupKey (dropCols l cs) n = none :=
  lookupKey_eq_none_of_forall (fun p hp => h p (List.mem_of_mem_filter hp))

theorem lookupKey_append_cons_ne (xs ys : Row) {tc n : String} (v : Val) (h : n ≠ tc) :
    lookupKey (xs ++ (tc, v) :: ys) n = lookupKey (xs ++ ys) n := by
  rw [lookupKey_append, lookupKey_append]
  cases hx : lookupKey xs n with
  | some w => rfl
  | none =>
      simp only [Option.orElse, lookupKey_cons, if_neg (Ne.symm h)]

theorem zip_map_filter_nil {vD vC : String → Val} {tc : String}
    (heq : ∀ n, n ≠ tc → vD n = vC n) :
    ∀ names : List String, names.count tc = 0 →
      ((names.map fun n => (n, vD n)).zip (names.map fun n => (n, vC n))).filter
        (fun p => decide (p.1 ≠ p.2)) = []
  | [], _ => rfl
  | n :: ns, h => by
      have hn : n ≠ tc := by
        intro e; subst e
        simp [List.count_cons_self] at h
      have hns : ns.count tc = 0 := by
        rw [List.count_cons] at h
        omega
      rw [List.map_cons, List.map_cons, List.zip_cons_cons,
        List.filter_cons_of_neg]
      · exact zip_map_filter_nil heq ns hns
      · simp [heq n hn]

theorem zip_map_filter_single {vD vC : String → Val} {tc : String}
    (hD : vD tc = Val.num 0) (hC : vC tc = Val.num 1)
    (heq : ∀ n, n ≠ tc → vD n = vC n) :
    ∀ names : List String, names.count tc = 1 →
      ((names.map fun n => (n, vD n)).zip (names.map fun n => (n, vC n))).filter
        (fun p => decide (p.1 ≠ p.2)) = [((tc, Val.num 0), (tc, Val.num 1))]
  | [], h => by simp at h
  | n :: ns, h => by
      by_cases hn : n = tc
      · subst hn
        have hns : ns.count n = 0 := by
          rw [List.count_cons_self] at h
          omega
        rw [List.map_cons, List.map_cons, List.zip_cons_cons,
          List.filter_cons_of_pos]
        · rw [hD, hC, zip_map_filter_nil heq ns hns]
        · simp [hD, hC]
      · have hns : ns.count tc = 1 := by
          rw [List.count_cons] at h
          simpa [hn] using h
        rw [List.map_cons, List.map_cons, List.zip_cons_cons,
          List.filter_cons_of_neg]
        · exact zip_map_filter_single hD hC heq ns hns
        · simp [heq n hn]

/-- The single-difference core: aligning the same expected columns over
two pre-alignment rows that agree except that the second interposes the
one extra indicator `(tc, 1)` yields rows differing exactly in column
`tc`, from 0 to 1. -/
theorem aligned_single_diff (names : List String) (tc : String) (base rest : Row)
    (hbase : lookupKey base tc = none) (hrest : lookupKey rest tc = none)
    (hcount : names.count tc = 1) :
    ((names.map fun n => (n, valD (base ++ rest) n)).zip
      (names.map fun n => (n, valD (base ++ (tc, Val.num 1) :: rest) n))).filter
        (fun p => decide (p.1 ≠ p.2)) = [((tc, Val.num 0), (tc, Val.num 1))] := by
  apply zip_map_filter_single _ _ _ names hcount
  · unfold valD
    rw [lookupKey_append, hbase]
    simp [Option.orElse, hrest]
  · unfold valD
    rw [lookupKey_append, hbase]
    simp [Option.orElse]
  · intro n hn
    unfold valD
    rw [lookupKey_append_cons_ne base rest _ hn]

/-! ## C9: flipping `property_type` from the baseline `D` changes exactly one column -/

/-- C9. For two housing inputs differing only in `property_type` —
the reference baseline `D` versus another valid code `c` — the two
aligned rows carry the expected columns in order and differ in exactly
one position: the `type_c` indicator, which goes from 0 to 1; every
other column is unchanged.  (The expected-column list is assumed to
mention `type_c` exactly once, as the training bundle does.) -/
theorem property_type_single_column_diff
    (enc : Option CountyEncoder) (names : List String)
    (c nw du co : String) (y m : Int)
    (hc : c ∈ ["S", "T", "F", "O"])
    (hcount : names.count ("type_" ++ c) = 1) :
    makeFeatures enc (some names) "D" nw du co y m
      = some (names.map fun n => (n, valD (preAlignRow enc "D" nw du co y m) n))
    ∧ makeFeatures enc (some names) c nw du co y m
      = some (names.map fun n => (n, valD (preAlignRow enc c nw du co y m) n))
    ∧ (names.map fun n => (n, valD (preAlignRow enc "D" nw du co y m) n)).map Prod.fst
        = names
    ∧ (names.map fun n => (n, valD (preAlignRow enc c nw du co y m) n)).map Prod.fst
        = names
    ∧ ((names.map fun n => (n, valD (preAlignRow enc "D" nw du co y m) n)).zip
        (names.map fun n => (n, valD (preAlignRow enc c nw du co y m) n))).filter
          (fun p => decide (p.1 ≠ p.2))
        = [(("type_" ++ c, Val.num 0), ("type_" ++ c, Val.num 1))] := by
  have hdrop : ("type_" ++ c) ∉ colsToDrop := by
    simp only [List.mem_cons, List.mem_singleton, List.not_mem_nil, or_false] at hc
    rcases hc with rfl | rfl | rfl | rfl <;> decide
  refine ⟨alignRow_char names _, alignRow_char names _,
    map_fst_named names _, map_fst_named names _, ?_⟩
  have hD : preAlignRow enc "D" nw du co y m
      = ([("year", Val.num y), ("month", Val.num m),
          ("quarter", Val.num (Int.fdiv (m - 1) 3 + 1)),
          ("county_encoded", Val.num (encValOf enc co))] : Row)
        ++ dropCols [("is_new_" ++ nw, Val.num 1), ("duration_" ++ du, Val.num 1)]
            colsToDrop := rfl
  have hC : preAlignRow enc c nw du co y m
      = ([("year", Val.num y), ("month", Val.num m),
          ("quarter", Val.num (Int.fdiv (m - 1) 3 + 1)),
          ("county_encoded", Val.num (encValOf enc co))] : Row)
        ++ ("type_" ++ c, Val.num 1)
          :: dropCols [("is_new_" ++ nw, Val.num 1), ("duration_" ++ du, Val.num 1)]
              colsToDrop := by
    rw [preAlignRow_eq]
    congr 1
    unfold dropCols
    rw [List.filter_cons_of_pos]
    simpa using hdrop
  rw [hD, hC]
  refine aligned_single_diff names ("type_" ++ c) _ _ ?_ ?_ hcount
  · apply lookupKey_eq_none_of_forall
    intro p hp
    simp only [List.mem_cons, List.not_mem_nil, or_false] at hp
    rcases hp with rfl | rfl | rfl | rfl
    · exact Ne.symm (type_append_ne c "year" (by decide))
    · exact Ne.symm (type_append_ne c "month" (by decide))
    · exact Ne.symm (type_append_ne c "quarter" (by decide))
    · exact Ne.symm (type_append_ne c "county_encoded" (by decide))
  · apply lookupKey_dropCols_none
    intro p hp
    simp only [List.mem_cons, List.not_mem_nil, or_false] at hp
    rcases hp with rfl | rfl
    · exact is_new_append_ne nw ("type_" ++ c) (by rw [show ("type_" ++ c).data.head? = some 't' from rfl]; decide)
    · exact duration_append_ne du ("type_" ++ c) (by rw [show ("type_" ++ c).data.head? = some 't' from rfl]; decide)

/-- Witness for C9: baseline `D` versus `S` at a concrete input and a
concrete expected-column list mentioning `type_S` once. -/
theorem property_type_single_column_diff_witness :
    (("S" : String) ∈ ["S", "T", "F", "O"]
      ∧ (["year", "type_S", "is_new_Y"] : List String).count ("type_" ++ "S") = 1) ∧
    (makeFeatures none (some ["year", "type_S", "is_new_Y"]) "D" "N" "F" "KENT" 2016 6
        = some ((["year", "type_S", "is_new_Y"]).map fun n =>
            (n, valD (preAlignRow none "D" "N" "F" "KENT" 2016 6) n))
      ∧ makeFeatures none (some ["year", "type_S", "is_new_Y"]) "S" "N" "F" "KENT" 2016 6
          = some ((["year", "type_S", "is_new_Y"]).map fun n =>
              (n, valD (preAlignRow none "S" "N" "F" "KENT" 2016 6) n))
      ∧ ((["year", "type_S", "is_new_Y"]).map fun n =>
            (n, valD (preAlignRow none "D" "N" "F" "KENT" 2016 6) n)).map Prod.fst
          = ["year", "type_S", "is_new_Y"]
      ∧ ((["year", "type_S", "is_new_Y"]).map fun n =>
            (n, valD (preAlignRow none "S" "N" "F" "KENT" 2016 6) n)).map Prod.fst
          = ["year", "type_S", "is_new_Y"]
      ∧ (((["year", "type_S", "is_new_Y"]).map fun n =>
            (n, valD (preAlignRow none "D" "N" "F" "KENT" 2016 6) n)).zip
          ((["year", "type_S", "is_new_Y"]).map fun n =>
            (n, valD (preAlignRow none "S" "N" "F" "KENT" 2016 6) n))).filter
            (fun p => decide (p.1 ≠ p.2))
          = [(("type_" ++ "S", Val.num 0), ("type_" ++ "S", Val.num 1))]) :=
  ⟨⟨by decide, by decide⟩,
    property_type_single_column_diff none ["year", "type_S", "is_new_Y"] "S" "N" "F" "KENT"
      2016 6 (by decide) (by decide)⟩

/-- C4 counterexample. A raw estimator artifact is not accepted:
`app.py::load_model` takes the fatal invalid-format path and the service
loader raises, refuting the claim that loading accepts the raw-estimator
shape. -/
theorem load_model_rejects_raw_estimator_cex :
    load_model (Artifact.estimator () : Artifact Unit Unit)
      = LoadResult.fatalError "Invalid model format. Please retrain using notebook 4."
    ∧ load_housing_bundle (Artifact.estimator () : Artifact Unit Unit)
      = Except.error "TypeError: object is not subscriptable" :=
  ⟨rfl, rfl⟩

/-- C4 amended. Loading accepts exactly one serialized shape: a
mapping containing a `model` key.  A raw estimator is rejected as a
fatal error, and a mapping lacking the `model` key fails as a fatal,
reported configuration error rather than defaulting the model. -/
theorem load_accepts_only_mapping_with_model {ε α : Type} (a : Artifact ε α) :
    ((load_model a).isOk = true ↔ ∃ es, a = .mapping es ∧ hasCol es "model" = true)
    ∧ (∀ es, a = Artifact.mapping es → hasCol es "model" = false →
        load_model a = .fatalError "Invalid model format. Please retrain using notebook 4."
        ∧ load_housing_bundle a = .error "KeyError: model")
    ∧ (∀ e, a = Artifact.estimator e →
        load_model a = .fatalError "Invalid model format. Please retrain using notebook 4."
        ∧ load_housing_bundle a = .error "TypeError: object is not subscriptable") := by
  refine ⟨?_, ?_, ?_⟩
  · constructor
    · intro hok
      cases a with
      | estimator e => simp [load_model, LoadResult.isOk] at hok
      | mapping es =>
          cases hB : hasCol es "model" with
          | true => exact ⟨es, rfl, hB⟩
          | false => simp [load_model, hB, LoadResult.isOk] at hok
    · rintro ⟨es, rfl, hB⟩
      simp [load_model, hB, LoadResult.isOk]
  · rintro es rfl hm
    have hnone : lookupKey es "model" = none := by
      rcases hl : lookupKey es "model" with _ | v
      · rfl
      · rw [hasCol, hl] at hm; cases hm
    constructor
    · simp [load_model, hasCol, hnone]
    · simp [load_housing_bundle, hnone]
  · rintro e rfl
    exact ⟨rfl, rfl⟩

/-- Witness for C4 at a concrete mapping lacking the `model` key. -/
theorem load_accepts_only_mapping_with_model_witness :
    hasCol [(("weights" : String), (0 : Nat))] "model" = false
    ∧ load_model (Artifact.mapping [("weights", (0 : Nat))] : Artifact Unit Nat)
        = .fatalError "Invalid model format. Please retrain using notebook 4."
    ∧ load_housing_bundle (Artifact.mapping [("weights", (0 : Nat))] : Artifact Unit Nat)
        = .error "KeyError: model" :=
  ⟨by decide,
    (load_accepts_only_mapping_with_model
        (Artifact.mapping [("weights", (0 : Nat))] : Artifact Unit Nat)).2.1
      [("weights", 0)] rfl (by decide)⟩

/-! ## C6: shape of the confidence band -/

/-- C6. For every raw model output and metrics mapping, the
confidence band computed around `price = expm1(y_log)` satisfies
`lower = max(1000, price - 2*mae)` and `upper = price + 2*mae` with
`mae` taken from `metrics["test_mae"]` when present and the fixed
fallback otherwise; hence the upper bound always sits exactly `2*mae`
above the price and the lower bound never goes below the floor 1000. -/
theorem confidence_band_formula (y_log v : ℝ) (metrics : List (String × ℝ)) :
    confidence_lower (predicted_price y_log) (mae_of metrics)
        = max 1000 (predicted_price y_log - 2 * mae_of metrics)
    ∧ confidence_upper (predicted_price y_log) (mae_of metrics)
        = predicted_price y_log + 2 * mae_of metrics
    ∧ confidence_upper (predicted_price y_log) (mae_of metrics) - predicted_price y_log
        = 2 * mae_of metrics
    ∧ 1000 ≤ confidence_lower (predicted_price y_log) (mae_of metrics)
    ∧ (lookupKey metrics "test_mae" = some v → mae_of metrics = v)
    ∧ (lookupKey metrics "test_mae" = none → mae_of metrics = mae_default) := by
  refine ⟨rfl, rfl, ?_, le_max_left _ _, ?_, ?_⟩
  · unfold confidence_upper; ring
  · intro h; simp [mae_of, h]
  · intro h; simp [mae_of, h]

/-- Witness for C6 at concrete inputs on both sides of the
`test_mae`-present conditional. -/
theorem confidence_band_formula_witness :
    (confidence_lower (predicted_price 0) (mae_of [("test_mae", (5 : ℝ))])
        = max 1000 (predicted_price 0 - 2 * mae_of [("test_mae", (5 : ℝ))])
      ∧ confidence_upper (predicted_price 0) (mae_of [("test_mae", (5 : ℝ))])
          = predicted_price 0 + 2 * mae_of [("test_mae", (5 : ℝ))]
      ∧ confidence_upper (predicted_price 0) (mae_of [("test_mae", (5 : ℝ))])
            - predicted_price 0
          = 2 * mae_of [("test_mae", (5 : ℝ))]
      ∧ 1000 ≤ confidence_lower (predicted_price 0) (mae_of [("test_mae", (5 : ℝ))])
      ∧ (lookupKey [("test_mae", (5 : ℝ))] "test_mae" = some 5
          → mae_of [("test_mae", (5 : ℝ))] = 5)
      ∧ (lookupKey [("test_mae", (5 : ℝ))] "test_mae" = none
          → mae_of [("test_mae", (5 : ℝ))] = mae_default)) :=
  confidence_band_formula 0 5 [("test_mae", (5 : ℝ))]

/-! ## C8: the round-trip law of the transform pair -/

/-- C8. The post-processing applies `expm1`, the exact inverse of the
training-time `log1p` transform: for every positive price `x`,
`expm1 (log1p x) = x`. -/
theorem expm1_log1p_roundtrip (x : ℝ) (hx : 0 < x) : expm1 (log1p x) = x := by
  unfold expm1 log1p
  rw [Real.exp_log (by linarith)]
  ring

/-- Witness for C8 at the concrete price 3. -/
theorem expm1_log1p_roundtrip_witness : (0 : ℝ) < 3 ∧ expm1 (log1p 3) = 3 :=
  ⟨by norm_num, expm1_log1p_roundtrip 3 (by norm_num)⟩

/-- Rounding an integer-valued rational is the identity. -/
theorem roundHalfEven_intCast (n : ℤ) : roundHalfEven (n : ℚ) = n := by
  unfold roundHalfEven
  rw [Rat.intCast_num, Rat.intCast_den]
  simp [Int.fdiv_one]

/-- Rounding with `round2` is the identity on integer-valued rationals. -/
theorem round2_intCast (n : ℤ) : round2 ((n : ℤ) : ℚ) = n := by
  unfold round2
  have h : ((n : ℚ)) * 100 = ((n * 100 : ℤ) : ℚ) := by push_cast; ring
  rw [h, roundHalfEven_intCast]
  push_cast
  ring

/-! ## C2: the forecast loop is stateless, not autoregressive -/

/-- C2 counterexample. With the two-step horizon starting 2025-01-01
00:00, initial history `[30000]`, and the concrete model
`f ↦ f.lag_1 + 1000`, the implemented loop returns `[36000, 36000]` —
both steps see the constant `lag_1 = 35000` — while the spec's
forecast-extended loop would return `[31000, 32000]`; in particular the
features used for step 2 ignore the step-1 prediction entirely. -/
theorem generate_forecast_not_autoregressive_cex :
    (generate_forecast (fun f => f.lag_1 + 1000) ⟨2025, 1, 1, 0⟩ 2).map Prod.snd
      = [36000, 36000]
    ∧ (generate_forecast_spec (fun f => f.lag_1 + 1000) ⟨2025, 1, 1, 0⟩ [30000] 2).map Prod.snd
      = [31000, 32000]
    ∧ (elecFeatures (addHour ⟨2025, 1, 1, 0⟩)).lag_1 = 35000
    ∧ ([36000, 36000] : List ℚ) ≠ [31000, 32000] := by
  have r36 : round2 (36000 : ℚ) = 36000 := by
    rw [show (36000 : ℚ) = ((36000 : ℤ) : ℚ) by norm_cast, round2_intCast]
  have r31 : round2 (31000 : ℚ) = 31000 := by
    rw [show (31000 : ℚ) = ((31000 : ℤ) : ℚ) by norm_cast, round2_intCast]
  have r32 : round2 (32000 : ℚ) = 32000 := by
    rw [show (32000 : ℚ) = ((32000 : ℤ) : ℚ) by norm_cast, round2_intCast]
  refine ⟨?_, ?_, rfl, ?_⟩
  · have hpe : ∀ dt : DateTime,
        predict_electricity (fun f => f.lag_1 + 1000) dt = 36000 := by
      intro dt
      show round2 ((elecFeatures dt).lag_1 + 1000) = 36000
      rw [show (elecFeatures dt).lag_1 = 35000 from rfl]
      norm_num [r36]
    simp [generate_forecast, hpe]
  · have hs1 : (elecFeaturesSpec (⟨2025, 1, 1, 0⟩ : DateTime) [30000]).lag_1 = 30000 := by
      decide
    have hs2 : (elecFeaturesSpec (addHour ⟨2025, 1, 1, 0⟩) [(30000 : ℚ), 31000]).lag_1
        = 31000 := by
      decide
    have hp1 : round2 ((elecFeaturesSpec (⟨2025, 1, 1, 0⟩ : DateTime) [30000]).lag_1 + 1000)
        = 31000 := by
      rw [hs1]
      norm_num [r31]
    have hp2 : round2
          ((elecFeaturesSpec (addHour ⟨2025, 1, 1, 0⟩) [(30000 : ℚ), 31000]).lag_1 + 1000)
        = 32000 := by
      rw [hs2]
      norm_num [r32]
    simp only [generate_forecast_spec, List.map_cons, List.map_nil]
    rw [hp1]
    norm_num
    rw [hp2]
  · intro h
    have := congrArg (fun l : List ℚ => l.headI) h
    norm_num at this

/-- C2 amended. The multi-step loop is a sequence of independent
stateless service calls: step `i` predicts from the features of
`start + i` hours alone, and every lag and rolling-mean feature of every
step is the fixed constant 35000 — predictions are never appended to a
working history series. -/
theorem generate_forecast_stateless_constant_lags
    (model : ElecFeatures → ℚ) (start : DateTime) (h : Nat) :
    generate_forecast model start h
      = (List.range h).map (fun i =>
          (addHours start i, predict_electricity model (addHours start i)))
    ∧ ∀ dt : DateTime,
        (elecFeatures dt).lag_1 = 35000 ∧ (elecFeatures dt).lag_24 = 35000
        ∧ (elecFeatures dt).lag_168 = 35000 ∧ (elecFeatures dt).roll_24 = 35000
        ∧ (elecFeatures dt).roll_168 = 35000 := by
  refine ⟨?_, fun dt => ⟨rfl, rfl, rfl, rfl, rfl⟩⟩
  induction h generalizing start with
  | zero => rfl
  | succ n ih =>
      rw [List.range_succ_eq_map, List.map_cons, List.map_map]
      show (start, predict_electricity model start) :: generate_forecast model (addHour start) n
        = (addHours start 0, predict_electricity model (addHours start 0)) :: _
      rw [ih (addHour start)]
      rfl

/-! ## C7: missing required fields give a 400 naming them, before predict -/

/-- C7. For every request body missing at least one required field,
the handler answers 400 with the body that lists exactly the missing
required fields (every omitted required field appears in it, `county`
included), and the predictor is never invoked — the response is the same
for every predict function. -/
theorem predict_housing_missing_fields_400
    (p q : HousingInputs → PredOutcome) (data : JObj)
    (hmiss : missing_fields data ≠ []) :
    handle_predict_housing p data = .missingFields (missing_fields data) required_fields
    ∧ statusOf (handle_predict_housing p data) = 400
    ∧ handle_predict_housing p data = handle_predict_housing q data
    ∧ ∀ f ∈ required_fields, hasCol data f = false → f ∈ missing_fields data := by
  have h : handle_predict_housing p data
      = .missingFields (missing_fields data) required_fields := by
    unfold handle_predict_housing
    rw [if_pos hmiss]
  have h' : handle_predict_housing q data
      = .missingFields (missing_fields data) required_fields := by
    unfold handle_predict_housing
    rw [if_pos hmiss]
  refine ⟨h, by rw [h]; rfl, by rw [h, h'], fun f hf hnot => ?_⟩
  unfold missing_fields
  refine List.mem_filter.mpr ⟨hf, ?_⟩
  rw [hnot]
  rfl

/-- Witness for C7: a request with only `property_type` and `year`
(missing `county` among others) gets the 400 listing the missing
fields. -/
theorem predict_housing_missing_fields_400_witness :
    missing_fields [("property_type", JVal.s "T"), ("year", JVal.i 2016)] ≠ []
    ∧ (handle_predict_housing (fun _ => .ok 0)
          [("property_type", JVal.s "T"), ("year", JVal.i 2016)]
        = .missingFields ["is_new", "duration", "county", "month"] required_fields
      ∧ "county" ∈ missing_fields [("property_type", JVal.s "T"), ("year", JVal.i 2016)]
      ∧ statusOf (handle_predict_housing (fun _ => .ok 0)
          [("property_type", JVal.s "T"), ("year", JVal.i 2016)]) = 400
      ∧ handle_predict_housing (fun _ => .ok 0)
          [("property_type", JVal.s "T"), ("year", JVal.i 2016)]
        = handle_predict_housing (fun _ => .failure "boom")
          [("property_type", JVal.s "T"), ("year", JVal.i 2016)]) := by
  have hm : missing_fields [("property_type", JVal.s "T"), ("year", JVal.i 2016)]
      = ["is_new", "duration", "county", "month"] := by decide
  have h := predict_housing_missing_fields_400 (fun _ => .ok 0) (fun _ => .failure "boom")
    [("property_type", JVal.s "T"), ("year", JVal.i 2016)] (by decide)
  refine ⟨by decide, ?_, by decide, h.2.1, h.2.2.1⟩
  rw [h.1, hm]

/-! ## C10: /health is 200 and `status` reflects only the housing model -/

/-- C10. Once the predictor is constructed, `GET /health` always
returns HTTP 200, and the `status` field of the body is `"healthy"`
exactly when the housing model is loaded and `"degraded"` otherwise,
independent of the electricity model: the handler's own
`"status": "ok"` entry is overwritten by the `health_check` mapping
merged after it. -/
theorem health_route_status (housingLoaded elecLoaded elecLoaded' : Bool)
    (housingTypeName modelName : String) (metrics : List (String × ℚ)) :
    (health_route housingLoaded elecLoaded housingTypeName modelName metrics).2 = 200
    ∧ lookupKey (health_route housingLoaded elecLoaded housingTypeName modelName metrics).1
        "status"
      = some (.s (if housingLoaded then "healthy" else "degraded"))
    ∧ lookupKey (health_route housingLoaded elecLoaded housingTypeName modelName metrics).1
        "status"
      = lookupKey (health_route housingLoaded elecLoaded' housingTypeName modelName metrics).1
        "status" := by
  cases housingLoaded <;>
    exact ⟨rfl, rfl, rfl⟩

end CloudAI
